import Mathlib

/-!
# Verification of the emotion-analysis pipeline

A shallow embedding of the Python sources of the `aptest` repository
(`src/analysis/emotion_engine.py`, `src/api/youtube_collector.py`,
`src/api/calendar_collector.py`, `src/database/firebase_manager.py`,
`main.py`), together with theorems settling the specification's claims
about them.

Conventions of the embedding:
* Python floats are modelled by `ℚ`; every float literal appearing in the
  source (`0.1`, `1.5`, `0.5`, ...) denotes a value exactly representable
  both as a double and as a rational, and every comparison the claims touch
  behaves identically in the two semantics.
* `math.exp(-0.1 * days_ago)` is transcendental, so the scoring engine is
  parametrised over the recency-weight function `w : ℕ → ℚ`; theorems that
  need facts about `exp` (positivity, `exp 0 = 1`) take them as hypotheses.
* Python `datetime` parsing is external; a date string is represented by its
  parse outcome `DateParse` (see below).
-/

namespace EmotionSystem

/-! ## Dates and the recency weight (`emotion_engine._calculate_days_ago`) -/

/-- Outcome of parsing a date string relative to `datetime.now()`:
`invalid` when neither of the two accepted formats parses (or when the
subtraction from `now` itself raises, as for timezone-aware ISO strings);
`parsed d` when parsing succeeds and `(datetime.now() - date_obj).days = d`
(negative for dates in the future). -/
inductive DateParse where
  | invalid : DateParse
  | parsed (diffDays : Int) : DateParse
deriving DecidableEq

/-- `EmotionAnalysisEngine._calculate_days_ago`: `max(0, days_ago)` on a
successful parse, `0` when the `try` block raises (`except: return 0`). -/
def calculateDaysAgo : DateParse → Nat
  | .invalid => 0
  | .parsed diffDays => (max 0 diffDays).toNat

/-! ## Keyword dictionaries (`EmotionAnalysisEngine.__init__`) -/

/-- Does `pat` start the character list `s`? -/
def startsWith : List Char → List Char → Bool
  | [], _ => true
  | _ :: _, [] => false
  | p :: ps, c :: cs => p == c && startsWith ps cs

/-- Substring containment over character lists. -/
def containsSub (pat : List Char) : List Char → Bool
  | [] => pat.isEmpty
  | c :: cs => startsWith pat (c :: cs) || containsSub pat cs

/-- Python `pat in s` (substring containment; the empty pattern is
contained in every string). -/
def strContains (s pat : String) : Bool :=
  containsSub pat.data s.data

/-- Python `str.lower()`.  `Char.toLower` only folds ASCII letters, which
agrees with Python on every string this system handles (Korean text is
case-less, the only Latin keyword is already lower-case). -/
def lowercase (s : String) : String :=
  ⟨s.data.map Char.toLower⟩

def positiveKeywords : List String :=
  ["힐링", "치유", "행복", "즐거", "웃음", "재미", "놀이", "게임", "음악", "재즈", "jazz",
   "영화", "리뷰", "찐뷰", "네고막", "책임", "연습", "베이스"]

def negativeKeywords : List String :=
  ["스트레스", "피곤", "힘들", "우울", "불안", "걱정", "급", "재해"]

def neutralKeywords : List String :=
  ["정보", "뉴스", "공부", "학습", "회의", "센터", "풋살"]

def entertainmentKeywords : List String :=
  ["영화", "리뷰", "게임", "음악", "재즈", "jazz", "찐뷰", "네고막", "애니"]

def lifestyleKeywords : List String :=
  ["힐링", "센터", "연습", "풋살", "베이스", "강남"]

def educationKeywords : List String :=
  ["공부", "학습", "정보", "책임"]

def socialKeywords : List String :=
  ["모임", "회의", "만남", "앱"]

/-! ## YouTube scoring (`EmotionAnalysisEngine.analyze_youtube_emotions`) -/

structure Subscription where
  channelName : String
  subscribedAt : DateParse
deriving DecidableEq

structure LikedVideo where
  title : String
  videoId : String
  channel : String
  publishedAt : DateParse
deriving DecidableEq

structure YoutubeData where
  subscriptions : List Subscription
  likedVideos : List LikedVideo
deriving DecidableEq

structure EmotionScores where
  positive : ℚ
  negative : ℚ
  neutral : ℚ
deriving DecidableEq

structure InterestScores where
  entertainment : ℚ
  lifestyle : ℚ
  education : ℚ
  social : ℚ
deriving DecidableEq

/-- The inner keyword loop: for every keyword in the list that is a
substring of `text`, add `timeWeight` to the accumulator. -/
def keywordScore (timeWeight : ℚ) (text : String) (keywords : List String) : ℚ :=
  keywords.foldl (fun s k => if strContains text k then s + timeWeight else s) 0

/-- One iteration of the subscription loop: lower-case the channel name,
weight by recency, and accumulate into every emotion and interest category. -/
def subscriptionStep (w : Nat → ℚ) (acc : EmotionScores × InterestScores)
    (sub : Subscription) : EmotionScores × InterestScores :=
  let channelName := lowercase sub.channelName
  let timeWeight := w (calculateDaysAgo sub.subscribedAt)
  (⟨acc.1.positive + keywordScore timeWeight channelName positiveKeywords,
    acc.1.negative + keywordScore timeWeight channelName negativeKeywords,
    acc.1.neutral + keywordScore timeWeight channelName neutralKeywords⟩,
   ⟨acc.2.entertainment + keywordScore timeWeight channelName entertainmentKeywords,
    acc.2.lifestyle + keywordScore timeWeight channelName lifestyleKeywords,
    acc.2.education + keywordScore timeWeight channelName educationKeywords,
    acc.2.social + keywordScore timeWeight channelName socialKeywords⟩)

/-- One iteration of the liked-video loop: each keyword match adds
`time_weight * 1.5`, and only emotion categories are touched. -/
def likedVideoStep (w : Nat → ℚ) (acc : EmotionScores) (video : LikedVideo) :
    EmotionScores :=
  let title := lowercase video.title
  let timeWeight := w (calculateDaysAgo video.publishedAt)
  ⟨acc.positive + keywordScore (timeWeight * 1.5) title positiveKeywords,
   acc.negative + keywordScore (timeWeight * 1.5) title negativeKeywords,
   acc.neutral + keywordScore (timeWeight * 1.5) title neutralKeywords⟩

/-- The raw (pre-normalisation) accumulators of
`analyze_youtube_emotions`: the subscription loop followed by the
liked-video loop. -/
def emotionInterestRaw (w : Nat → ℚ) (data : YoutubeData) :
    EmotionScores × InterestScores :=
  let afterSubs := data.subscriptions.foldl (subscriptionStep w) (⟨0, 0, 0⟩, ⟨0, 0, 0, 0⟩)
  (data.likedVideos.foldl (likedVideoStep w) afterSubs.1, afterSubs.2)

structure YoutubeAnalysis where
  emotionScores : EmotionScores
  interests : InterestScores
  totalChannels : Nat
  totalLiked : Nat
deriving DecidableEq

/-- `EmotionAnalysisEngine.analyze_youtube_emotions`: accumulate, then
normalise each bundle by its total when the total is positive. -/
def analyzeYoutubeEmotions (w : Nat → ℚ) (data : YoutubeData) : YoutubeAnalysis :=
  let raw := emotionInterestRaw w data
  let es := raw.1
  let interests := raw.2
  let totalEmotion := es.positive + es.negative + es.neutral
  let es' : EmotionScores :=
    if totalEmotion > 0 then
      ⟨es.positive / totalEmotion, es.negative / totalEmotion, es.neutral / totalEmotion⟩
    else es
  let totalInterest :=
    interests.entertainment + interests.lifestyle + interests.education + interests.social
  let interests' : InterestScores :=
    if totalInterest > 0 then
      ⟨interests.entertainment / totalInterest, interests.lifestyle / totalInterest,
       interests.education / totalInterest, interests.social / totalInterest⟩
    else interests
  ⟨es', interests', data.subscriptions.length, data.likedVideos.length⟩

/-! ## Calendar fatigue (`EmotionAnalysisEngine.analyze_calendar_fatigue`) -/

structure CalendarEvent where
  title : String
  startDate : String
  startTime : String
  description : String
  location : String
deriving DecidableEq

/-- `calendar_data` as read by the engine; only the `events` key is used
(the `schedule_analysis` key is read into a local variable and never
consulted, so it is not modelled). -/
structure CalendarData where
  events : List CalendarEvent
deriving DecidableEq

inductive TimeBucket where
  | morning | afternoon | evening | night
deriving DecidableEq

/-- The `if 6 <= hour < 12 / elif ... / else` chain bucketing a start hour. -/
def hourBucket (hour : Nat) : TimeBucket :=
  if 6 ≤ hour ∧ hour < 12 then .morning
  else if 12 ≤ hour ∧ hour < 18 then .afternoon
  else if 18 ≤ hour ∧ hour < 22 then .evening
  else .night

/-- Decimal value of a digit string, as Python `int` computes it for the
numeric hour fields that occur in collected data (Python `int` raises on
non-digit text; the model totalises that case instead). -/
def digitsValue (cs : List Char) : Nat :=
  cs.foldl (fun n c => n * 10 + (c.toNat - 48)) 0

/-- The guard `time_str != "종일" and ":" in time_str` plus
`hour = int(time_str.split(':')[0])` (the digits before the first colon). -/
def eventHour (timeStr : String) : Option Nat :=
  if timeStr ≠ "종일" ∧ timeStr.data.contains ':' then
    some (digitsValue (timeStr.data.takeWhile (· != ':')))
  else none

/-- The bucket an event's start time falls in, `none` for all-day /
untimed entries. -/
def eventBucket (timeStr : String) : Option TimeBucket :=
  (eventHour timeStr).map hourBucket

structure TimeDistribution where
  morning : Nat
  afternoon : Nat
  evening : Nat
  night : Nat
deriving DecidableEq

/-- `daily_counts[date] = daily_counts.get(date, 0) + 1` on an
insertion-ordered dict, modelled as an association list: bump the first
entry with the given key, or append a fresh `(date, 1)` entry. -/
def bumpDay : List (String × Nat) → String → List (String × Nat)
  | [], date => [(date, 1)]
  | (k, v) :: rest, date =>
      if k = date then (k, v + 1) :: rest else (k, v) :: bumpDay rest date

/-- The `time_distribution` update for one event. -/
def bumpTime (td : TimeDistribution) (timeStr : String) : TimeDistribution :=
  match eventBucket timeStr with
  | none => td
  | some .morning => { td with morning := td.morning + 1 }
  | some .afternoon => { td with afternoon := td.afternoon + 1 }
  | some .evening => { td with evening := td.evening + 1 }
  | some .night => { td with night := td.night + 1 }

/-- The single `for event in events` loop filling `daily_counts` and
`time_distribution` together. -/
def calendarLoop (events : List CalendarEvent) :
    List (String × Nat) × TimeDistribution :=
  events.foldl
    (fun acc event => (bumpDay acc.1 event.startDate, bumpTime acc.2 event.startTime))
    ([], ⟨0, 0, 0, 0⟩)

/-- The stress-level classification at the end of
`analyze_calendar_fatigue` (strict comparisons at `2.0` and `1.0`). -/
def stressLevelOf (fatigueIndex : ℚ) : String :=
  if fatigueIndex > 2.0 then "high"
  else if fatigueIndex > 1.0 then "medium"
  else "low"

structure FatigueResult where
  fatigueIndex : ℚ
  stressLevel : String
  dailyCounts : List (String × Nat)
  timeDistribution : TimeDistribution
  maxDailyEvents : Nat
deriving DecidableEq

/-- `EmotionAnalysisEngine.analyze_calendar_fatigue`.  For an empty event
list the Python early-returns a dict carrying only `fatigue_index` and
`stress_level`; the remaining fields are filled with inert defaults here. -/
def analyzeCalendarFatigue (calendarData : CalendarData) : FatigueResult :=
  if calendarData.events = [] then
    ⟨0, "low", [], ⟨0, 0, 0, 0⟩, 0⟩
  else
    let loopResult := calendarLoop calendarData.events
    let dailyCounts := loopResult.1
    let timeDistribution := loopResult.2
    let daysWithEvents := dailyCounts.length
    let maxDailyEvents := (dailyCounts.map Prod.snd).foldl Nat.max 0
    let fatigueIndex : ℚ :=
      if daysWithEvents > 0 then
        let totalEvents := calendarData.events.length
        let fatigueDensity : ℚ := (totalEvents : ℚ) / (daysWithEvents : ℚ)
        let fatigueGap : ℚ := (maxDailyEvents : ℚ) / 10.0
        let totalTimedEvents := timeDistribution.morning + timeDistribution.afternoon +
          timeDistribution.evening + timeDistribution.night
        let fatigueTime : ℚ :=
          if totalTimedEvents > 0 then (timeDistribution.night : ℚ) / (totalTimedEvents : ℚ)
          else 0
        0.5 * fatigueDensity + 0.3 * fatigueGap + 0.2 * fatigueTime
      else 0
    ⟨fatigueIndex, stressLevelOf fatigueIndex, dailyCounts, timeDistribution, maxDailyEvents⟩

/-! ## Overall fusion (`EmotionAnalysisEngine.calculate_overall_emotion`) -/

structure OverallEmotion where
  emotionScore : ℚ
  emotionState : String
  moodEmoji : String
  topInterest : String
  recommendations : List String
deriving DecidableEq

/-- The dict lookup `{'low': 0.1, 'medium': 0.3, 'high': 0.5}[stress_level]`
(a `KeyError` for any other string; the engine only ever produces these
three). -/
def stressImpactOf (stressLevel : String) : ℚ :=
  if stressLevel = "low" then 0.1
  else if stressLevel = "medium" then 0.3
  else 0.5

/-- `EmotionAnalysisEngine._generate_recommendations`. -/
def generateRecommendations (emotionState stressLevel interest : String) :
    List String :=
  let recs : List String := []
  let recs := if stressLevel = "high"
    then recs ++ ["😌 휴식이 필요한 시간입니다. 잠시 일정을 조정해보세요."] else recs
  let recs := if strContains emotionState "부정적" then
      if interest = "entertainment"
        then recs ++ ["🎬 좋아하는 영화나 음악으로 기분 전환을 해보세요."]
      else if interest = "lifestyle"
        then recs ++ ["🧘 힐링센터나 운동으로 스트레스를 풀어보세요."]
      else recs
    else recs
  if emotionState = "매우 긍정적"
    then recs ++ ["✨ 좋은 컨디션이네요! 새로운 도전을 해보는 것도 좋겠어요."] else recs

/-- Python `max(items, key=value)` over the insertion-ordered interest
dict: scan left to right, replacing the champion only on a strictly
greater value (first maximum wins). -/
def topInterestOf (interests : InterestScores) : String :=
  let items : List (String × ℚ) :=
    [("entertainment", interests.entertainment), ("lifestyle", interests.lifestyle),
     ("education", interests.education), ("social", interests.social)]
  (items.foldl (fun best item => if item.2 > best.2 then item else best)
    ("entertainment", interests.entertainment)).1

/-- `EmotionAnalysisEngine.calculate_overall_emotion`. -/
def calculateOverallEmotion (youtubeAnalysis : YoutubeAnalysis)
    (calendarAnalysis : FatigueResult) : OverallEmotion :=
  let ytPositive := youtubeAnalysis.emotionScores.positive
  let ytNegative := youtubeAnalysis.emotionScores.negative
  let stressLevel := calendarAnalysis.stressLevel
  let stressImpact := stressImpactOf stressLevel
  let baseEmotion := ytPositive - ytNegative
  let stressAdjustedEmotion := baseEmotion - stressImpact
  let stateEmoji : String × String :=
    if stressAdjustedEmotion > 0.3 then ("매우 긍정적", "😊")
    else if stressAdjustedEmotion > 0.1 then ("긍정적", "🙂")
    else if stressAdjustedEmotion > -0.1 then ("보통", "😐")
    else if stressAdjustedEmotion > -0.3 then ("다소 부정적", "😔")
    else ("부정적", "😞")
  let topInterest := topInterestOf youtubeAnalysis.interests
  ⟨stressAdjustedEmotion, stateEmoji.1, stateEmoji.2, topInterest,
   generateRecommendations stateEmoji.1 stressLevel topInterest⟩

/-! ## Collectors (`youtube_collector.py`, `calendar_collector.py`)

A fetch operation's body is a `try` block around one vendor API call plus a
record-shaping loop; the vendor call either yields a list of raw items or
raises.  `FetchOutcome` is that alternative, and each collector function is
the total function the `try/except` makes of it; a Python return value of
`None` is `Option.none`, a returned list `xs` is `some xs`. -/

inductive FetchOutcome (α : Type) where
  | success (items : List α) : FetchOutcome α
  | failure : FetchOutcome α

/-- Raw YouTube subscription item (the fields of
`response['items'][i]` that `get_subscriptions` reads). -/
structure RawSubscriptionItem where
  snippetTitle : String
  resourceChannelId : String
  snippetPublishedAt : String

structure SubscriptionRecord where
  channelName : String
  channelId : String
  subscribedAt : String
deriving DecidableEq

/-- Raw YouTube video item read by `get_liked_videos`. -/
structure RawVideoItem where
  snippetTitle : String
  videoId : String
  channelTitle : String
  snippetPublishedAt : String

structure LikedVideoRecord where
  title : String
  videoId : String
  channel : String
  publishedAt : String
deriving DecidableEq

/-- Raw calendar event item read by `get_recent_events`: `start` is the
`dateTime` value if present else the `date` value; `summary`,
`description`, `location` may be absent. -/
structure RawEventItem where
  start : String
  summary : Option String
  description : Option String
  location : Option String

/-- `YouTubeCollector.get_subscriptions`: shape each item on success; on
any exception the `except` block only prints, so the function falls off
its end and returns `None`. -/
def getSubscriptions (response : FetchOutcome RawSubscriptionItem) :
    Option (List SubscriptionRecord) :=
  match response with
  | .success items =>
      some (items.map (fun item =>
        ⟨item.snippetTitle, item.resourceChannelId, item.snippetPublishedAt.take 10⟩))
  | .failure => none

/-- `YouTubeCollector.get_liked_videos`: on any exception, `return []`. -/
def getLikedVideos (response : FetchOutcome RawVideoItem) :
    Option (List LikedVideoRecord) :=
  match response with
  | .success items =>
      some (items.map (fun item =>
        ⟨item.snippetTitle, item.videoId, item.channelTitle,
         item.snippetPublishedAt.take 10⟩))
  | .failure => some []

/-- The event-shaping step of `get_recent_events`: split `start` into a
date and a time (sentinel `"종일"` when there is no `T` component) and
default the optional text fields. -/
def shapeEvent (item : RawEventItem) : CalendarEvent :=
  let startDate := if item.start.contains 'T' then item.start.take 10 else item.start
  let startTime :=
    if item.start.contains 'T' then (item.start.drop 11).take 5 else "종일"
  ⟨item.summary.getD "제목 없음", startDate, startTime,
   item.description.getD "", item.location.getD ""⟩

/-- `CalendarCollector.get_recent_events`: on any exception, `return []`. -/
def getRecentEvents (response : FetchOutcome RawEventItem) :
    Option (List CalendarEvent) :=
  match response with
  | .success items => some (items.map shapeEvent)
  | .failure => some []

/-- `YouTubeCollector.connect` / `CalendarCollector.connect`: success of
the credential/service setup is reported as a boolean, `False` on any
exception. -/
def connectStep (outcome : FetchOutcome Unit) : Bool :=
  match outcome with
  | .success _ => true
  | .failure => false

/-! ## Persistence (`firebase_manager.py`) -/

/-- The per-run analysis document assembled by
`CompleteEmotionSystem._analyze_emotions` and handed to the persistence
layer. -/
structure AnalysisRecord where
  analysisDate : String
  userId : String
  youtubeAnalysis : YoutubeAnalysis
  calendarAnalysis : FatigueResult
  overallEmotion : OverallEmotion
deriving DecidableEq

/-- One entry of `MockFirebaseManager`'s local JSON file:
`{'analysis_id': ..., 'timestamp': ..., **analysis_data}`
(the analysis document has no keys named `analysis_id` or `timestamp`,
so the merge is a plain pairing). -/
structure SavedEntry where
  analysisId : String
  savedTimestamp : String
  record : AnalysisRecord
deriving DecidableEq

/-- The local JSON file's contents: a map from user id to that user's
list of saved entries (in append order, oldest first); a missing key
reads as `[]`. -/
def MockStore : Type := String → List SavedEntry

/-- `MockFirebaseManager.save_emotion_analysis` (its effect on the
store): append the merged entry to the user's list.  The `analysis_id`
and `timestamp` strings are derived from `datetime.now()` and passed in
here; the function also returns the `analysis_id string, which no claim
consults. -/
def mockSaveEmotionAnalysis (store : MockStore) (userId : String)
    (analysisData : AnalysisRecord) (analysisId timestamp : String) : MockStore :=
  fun u =>
    if u = userId then store u ++ [⟨analysisId, timestamp, analysisData⟩]
    else store u

/-- `MockFirebaseManager.get_user_history`:
`return user_data[-limit:] if user_data else []`.  For `limit ≥ 1` the
Python slice is the final `limit` entries (in stored order); `-0` is `0`,
so `limit = 0` returns the whole list. -/
def mockGetUserHistory (store : MockStore) (userId : String) (limit : Nat) :
    List SavedEntry :=
  let userData := store userId
  if userData = [] then []
  else if limit = 0 then userData
  else userData.drop (userData.length - limit)

/-- A document of the remote Firestore collection
`users/{user_id}/analyses`, reduced to the fields the history query
consults: the server-assigned `timestamp` and the analysis payload. -/
structure StoredDoc where
  serverTimestamp : Nat
  data : AnalysisRecord
deriving DecidableEq

/-- Insert into a list kept sorted by descending `serverTimestamp`. -/
def insertByTimestampDesc (doc : StoredDoc) : List StoredDoc → List StoredDoc
  | [] => [doc]
  | d :: ds =>
      if d.serverTimestamp ≤ doc.serverTimestamp then doc :: d :: ds
      else d :: insertByTimestampDesc doc ds

def sortByTimestampDesc : List StoredDoc → List StoredDoc
  | [] => []
  | d :: ds => insertByTimestampDesc d (sortByTimestampDesc ds)

/-- Modelled from the spec: `FirebaseManager.get_user_history` delegates
ordering and truncation to the vendor query
`order_by('timestamp', direction=DESCENDING).limit(limit)`; the vendor
store is not part of the repository, so the query is modelled as sorting
the user's stored documents by server timestamp, newest first, and
streaming the first `limit` of them. -/
def firestoreGetUserHistory (docs : List StoredDoc) (limit : Nat) :
    List StoredDoc :=
  (sortByTimestampDesc docs).take limit

/-! ## Trend aggregation (`CompleteEmotionSystem._analyze_trends`) -/

structure TrendAnalysis where
  emotionTrend : String
  recentAverage : ℚ
  historicalAverage : ℚ
  dataPoints : Nat
deriving DecidableEq

/-- `CompleteEmotionSystem._analyze_trends`, as a function of the fetched
history (newest first): `none` models the early `return` when fewer than
2 records are available (the inner `if len(emotion_scores) >= 2` re-check
is then always true). -/
def analyzeTrends (historyData : List AnalysisRecord) : Option TrendAnalysis :=
  if historyData.length < 2 then none
  else
    let emotionScores := historyData.map (fun r => r.overallEmotion.emotionScore)
    let recentAvg := (emotionScores.take 2).sum / 2
    let olderAvg :=
      if emotionScores.length > 2 then
        (emotionScores.drop 2).sum / ((emotionScores.drop 2).length : ℚ)
      else recentAvg
    let trend :=
      if recentAvg > olderAvg then "상승"
      else if recentAvg < olderAvg then "하락"
      else "유지"
    some ⟨trend, recentAvg, olderAvg, emotionScores.length⟩

/-- The trend step as §4.3 of the specification words it: `recent_avg` is
the mean of the newest 2 scores, `older_avg` the mean of the remainder
(equal to `recent_avg` when there are fewer than 3 records), and the
direction is `상승`/up when `recent_avg > older_avg`, `하락`/down when
smaller, `유지`/flat otherwise. -/
def trendSpec (scores : List ℚ) : TrendAnalysis :=
  let recentAvg := (scores.take 2).sum / 2
  let olderAvg :=
    if scores.length < 3 then recentAvg
    else (scores.drop 2).sum / ((scores.drop 2).length : ℚ)
  ⟨if recentAvg > olderAvg then "상승"
    else if recentAvg < olderAvg then "하락" else "유지",
   recentAvg, olderAvg, scores.length⟩

/-! ## Theorems -/

/-- C4: for every fatigue-index value, the stress level is a pure step
function of the index with breakpoints at `1.0` and `2.0` under strict
comparisons — `"high"` iff the index exceeds `2`, `"medium"` iff it lies in
`(1, 2]`, `"low"` otherwise — the boundary values `1` and `2` resolving to
the lower-stress bucket; and `analyze_calendar_fatigue` assigns exactly
this function of its own fatigue index. -/
theorem stress_level_step_function (q : ℚ) :
    ((stressLevelOf q = "high") ↔ 2 < q) ∧
    ((stressLevelOf q = "medium") ↔ 1 < q ∧ q ≤ 2) ∧
    ((stressLevelOf q = "low") ↔ q ≤ 1) ∧
    stressLevelOf 1 = "low" ∧
    stressLevelOf 2 = "medium" ∧
    ∀ calendarData : CalendarData,
      (analyzeCalendarFatigue calendarData).stressLevel =
        stressLevelOf (analyzeCalendarFatigue calendarData).fatigueIndex := by
  have h20 : (2.0 : ℚ) = 2 := by norm_num
  have h10 : (1.0 : ℚ) = 1 := by norm_num
  refine ⟨?_, ?_, ?_, ?_, ?_, ?_⟩
  · unfold stressLevelOf
    rw [h20, h10]
    split_ifs with h1 h2
    · exact iff_of_true rfl h1
    · exact iff_of_false (by decide) h1
    · exact iff_of_false (by decide) h1
  · unfold stressLevelOf
    rw [h20, h10]
    split_ifs with h1 h2
    · exact iff_of_false (by decide) (fun hc => absurd hc.2 (not_le.mpr h1))
    · exact iff_of_true rfl ⟨h2, not_lt.mp h1⟩
    · exact iff_of_false (by decide) (fun hc => h2 hc.1)
  · unfold stressLevelOf
    rw [h20, h10]
    split_ifs with h1 h2
    · exact iff_of_false (by decide) (not_le.mpr (lt_trans one_lt_two h1))
    · exact iff_of_false (by decide) (not_le.mpr h2)
    · exact iff_of_true rfl (not_lt.mp h2)
  · unfold stressLevelOf
    rw [if_neg (by norm_num), if_neg (by norm_num)]
  · unfold stressLevelOf
    rw [if_neg (by norm_num), if_pos (by norm_num)]
  · intro calendarData
    unfold analyzeCalendarFatigue
    split_ifs with h
    · unfold stressLevelOf
      rw [if_neg (by norm_num), if_neg (by norm_num)]
    · rfl

/-- C10: an unparseable date string, and every date lying in the future,
makes `_calculate_days_ago` return `0` (without raising), so such
subscription or liked-video records receive the maximum recency weight
`exp(-λ·0) = 1`, the same weight as a record dated today. -/
theorem days_ago_error_handling (w : Nat → ℚ) (hw : w 0 = 1)
    (d : Int) (hd : d < 0) :
    calculateDaysAgo .invalid = 0 ∧
    calculateDaysAgo (.parsed d) = 0 ∧
    w (calculateDaysAgo .invalid) = 1 ∧
    w (calculateDaysAgo (.parsed d)) = w (calculateDaysAgo (.parsed 0)) := by
  have h0 : calculateDaysAgo (.parsed d) = 0 := by
    simp only [calculateDaysAgo]
    omega
  refine ⟨rfl, h0, by simpa [calculateDaysAgo] using hw, ?_⟩
  rw [h0]
  simp [calculateDaysAgo]

theorem days_ago_error_handling_witness :
    (fun _ : Nat => (1 : ℚ)) 0 = 1 ∧ (-3 : Int) < 0 ∧
    (calculateDaysAgo .invalid = 0 ∧
      calculateDaysAgo (.parsed (-3)) = 0 ∧
      (fun _ : Nat => (1 : ℚ)) (calculateDaysAgo .invalid) = 1 ∧
      (fun _ : Nat => (1 : ℚ)) (calculateDaysAgo (.parsed (-3))) =
        (fun _ : Nat => (1 : ℚ)) (calculateDaysAgo (.parsed 0))) :=
  ⟨rfl, by norm_num,
    days_ago_error_handling (fun _ => (1 : ℚ)) rfl (-3) (by norm_num)⟩

/-- C5 (the code as written): on a failure inside the fetch `try` block,
`get_liked_videos` and `get_recent_events` return `[]`, but
`get_subscriptions` returns `None` — its `except` block only prints — and
`connect` reports failure as the boolean `False`. -/
theorem collector_failure_return_values :
    getSubscriptions .failure = none ∧
    getLikedVideos .failure = some [] ∧
    getRecentEvents .failure = some [] ∧
    connectStep .failure = false :=
  ⟨rfl, rfl, rfl, rfl⟩

/-- C1 (amended): with empty YouTube data and empty calendar data the
pipeline yields `fatigue_index = 0` and `stress_level = "low"`, but the
overall state falls in the `"다소 부정적"` (somewhat-negative) band, not
the neutral `"보통"` band: the stress-adjusted score is exactly
`0 - 0 - 0.1 = -0.1` and the band test `> -0.1` is strict. -/
theorem empty_input_pipeline_result (w : Nat → ℚ) :
    (analyzeCalendarFatigue ⟨[]⟩).fatigueIndex = 0 ∧
    (analyzeCalendarFatigue ⟨[]⟩).stressLevel = "low" ∧
    (calculateOverallEmotion (analyzeYoutubeEmotions w ⟨[], []⟩)
        (analyzeCalendarFatigue ⟨[]⟩)).emotionScore = -(1/10) ∧
    (calculateOverallEmotion (analyzeYoutubeEmotions w ⟨[], []⟩)
        (analyzeCalendarFatigue ⟨[]⟩)).emotionState = "다소 부정적" ∧
    (calculateOverallEmotion (analyzeYoutubeEmotions w ⟨[], []⟩)
        (analyzeCalendarFatigue ⟨[]⟩)).moodEmoji = "😔" := by
  refine ⟨rfl, rfl, ?_, ?_, ?_⟩ <;>
    norm_num [calculateOverallEmotion, analyzeYoutubeEmotions, emotionInterestRaw,
      analyzeCalendarFatigue, stressLevelOf, stressImpactOf, topInterestOf]

/-- C1, counterexample to the claim as stated: on the all-empty input the
overall `emotion_state` is `"다소 부정적"`, which is not the neutral
`"보통"` band the claim asserts. -/
theorem empty_input_neutral_band_cex :
    (calculateOverallEmotion (analyzeYoutubeEmotions (fun _ => 1) ⟨[], []⟩)
        (analyzeCalendarFatigue ⟨[]⟩)).emotionState = "다소 부정적" ∧
    ("다소 부정적" : String) ≠ "보통" := by
  constructor
  · norm_num [calculateOverallEmotion, analyzeYoutubeEmotions, emotionInterestRaw,
      analyzeCalendarFatigue, stressLevelOf, stressImpactOf, topInterestOf]
  · decide

/-! ## Concrete fixtures shared by several scenarios -/

/-- A minimal analysis document carrying a given overall emotion score. -/
def mkTestRecord (score : ℚ) (analysisDate : String) : AnalysisRecord :=
  ⟨analysisDate, "김재원", ⟨⟨0, 0, 0⟩, ⟨0, 0, 0, 0⟩, 0, 0⟩,
   ⟨0, "low", [], ⟨0, 0, 0, 0⟩, 0⟩,
   ⟨score, "보통", "😐", "entertainment", []⟩⟩

/-- Swapping the branches of an `if` whose condition is the negation of
another condition. -/
theorem ite_swap_of_iff_not {α : Type} {c₁ c₂ : Prop} [Decidable c₁]
    [Decidable c₂] (h : c₁ ↔ ¬c₂) (x y : α) :
    (if c₁ then x else y) = if c₂ then y else x := by
  by_cases hc : c₂
  · rw [if_pos hc, if_neg (fun hc1 => h.mp hc1 hc)]
  · rw [if_neg hc, if_pos (h.mpr hc)]

/-- C7: the trend step refines its specification — with at least 2 history
records (newest first) it returns `recent_avg` = mean of the newest 2
scores, `older_avg` = mean of the remainder (equal to `recent_avg` for
fewer than 3 records), and the direction `상승`/up, `하락`/down or
`유지`/flat by comparing the two; with fewer than 2 records it is skipped
(`none`); and on the scores `[0.5, 0.3, 0.1]` (newest first) it yields
`recent_avg = 0.4`, `older_avg = 0.1` and the `상승`/up direction. -/
theorem trend_analysis_spec :
    (∀ historyData : List AnalysisRecord,
      analyzeTrends historyData =
        if historyData.length < 2 then none
        else some (trendSpec
          (historyData.map (fun r => r.overallEmotion.emotionScore)))) ∧
    analyzeTrends
        [mkTestRecord 0.5 "2026-02-03", mkTestRecord 0.3 "2026-02-02",
         mkTestRecord 0.1 "2026-02-01"] =
      some ⟨"상승", 2/5, 1/10, 3⟩ := by
  constructor
  · intro historyData
    simp only [analyzeTrends, trendSpec, List.length_map]
    by_cases h2 : historyData.length < 2
    · simp [h2]
    · rw [if_neg h2, if_neg h2,
        ite_swap_of_iff_not
          (by omega : historyData.length > 2 ↔ ¬(historyData.length < 3))]
  · norm_num [analyzeTrends, mkTestRecord]

/-- C9: saving an analysis record through the mock persistence layer and
immediately reading the user's history back with any `limit ≥ 1` yields a
record with the same `user_id`, `overall_emotion.emotion_score` and
`calendar_analysis.stress_level` as the record saved. -/
theorem mock_roundtrip (store : MockStore) (userId : String)
    (analysisData : AnalysisRecord) (analysisId timestamp : String)
    (limit : Nat) (hlim : 1 ≤ limit) :
    ∃ entry ∈ mockGetUserHistory
        (mockSaveEmotionAnalysis store userId analysisData analysisId timestamp)
        userId limit,
      entry.record.userId = analysisData.userId ∧
      entry.record.overallEmotion.emotionScore =
        analysisData.overallEmotion.emotionScore ∧
      entry.record.calendarAnalysis.stressLevel =
        analysisData.calendarAnalysis.stressLevel := by
  refine ⟨⟨analysisId, timestamp, analysisData⟩, ?_, rfl, rfl, rfl⟩
  have hstore : mockSaveEmotionAnalysis store userId analysisData analysisId timestamp
      userId = store userId ++ [⟨analysisId, timestamp, analysisData⟩] := by
    simp [mockSaveEmotionAnalysis]
  unfold mockGetUserHistory
  rw [hstore]
  have hne : store userId ++ [(⟨analysisId, timestamp, analysisData⟩ : SavedEntry)] ≠ [] := by
    simp
  rw [if_neg hne, if_neg (by omega)]
  have hk : (store userId ++ [(⟨analysisId, timestamp, analysisData⟩ : SavedEntry)]).length
      - limit ≤ (store userId).length := by
    simp only [List.length_append, List.length_singleton]
    omega
  rw [List.drop_append_of_le_length hk]
  exact List.mem_append_right _ (List.mem_singleton_self _)

theorem mock_roundtrip_witness :
    1 ≤ 1 ∧
    ∃ entry ∈ mockGetUserHistory
        (mockSaveEmotionAnalysis (fun _ => []) "김재원" (mkTestRecord 0 "2026-02-02")
          "analysis_20260202" "2026-02-02T00:00:00") "김재원" 1,
      entry.record.userId = (mkTestRecord 0 "2026-02-02").userId ∧
      entry.record.overallEmotion.emotionScore =
        (mkTestRecord 0 "2026-02-02").overallEmotion.emotionScore ∧
      entry.record.calendarAnalysis.stressLevel =
        (mkTestRecord 0 "2026-02-02").calendarAnalysis.stressLevel :=
  ⟨le_refl 1,
    mock_roundtrip (fun _ => []) "김재원" (mkTestRecord 0 "2026-02-02")
      "analysis_20260202" "2026-02-02T00:00:00" 1 (le_refl 1)⟩

/-! ## Ordering lemmas for the modelled Firestore query -/

theorem mem_insertByTimestampDesc {doc x : StoredDoc} :
    ∀ {l : List StoredDoc},
      x ∈ insertByTimestampDesc doc l ↔ x = doc ∨ x ∈ l := by
  intro l
  induction l with
  | nil => simp [insertByTimestampDesc]
  | cons d ds ih =>
      by_cases h : d.serverTimestamp ≤ doc.serverTimestamp
      · simp [insertByTimestampDesc, h]
      · simp only [insertByTimestampDesc, if_neg h, List.mem_cons, ih]
        tauto

theorem pairwise_insertByTimestampDesc {doc : StoredDoc} :
    ∀ {l : List StoredDoc},
      l.Pairwise (fun a b => b.serverTimestamp ≤ a.serverTimestamp) →
      (insertByTimestampDesc doc l).Pairwise
        (fun a b => b.serverTimestamp ≤ a.serverTimestamp) := by
  intro l
  induction l with
  | nil => intro _; simp [insertByTimestampDesc]
  | cons d ds ih =>
      intro hp
      rcases List.pairwise_cons.mp hp with ⟨hd, hds⟩
      by_cases h : d.serverTimestamp ≤ doc.serverTimestamp
      · rw [insertByTimestampDesc, if_pos h]
        refine List.pairwise_cons.mpr ⟨?_, hp⟩
        intro x hx
        rcases List.mem_cons.mp hx with rfl | hx
        · exact h
        · exact le_trans (hd x hx) h
      · rw [insertByTimestampDesc, if_neg h]
        refine List.pairwise_cons.mpr ⟨?_, ih hds⟩
        intro x hx
        rcases mem_insertByTimestampDesc.mp hx with rfl | hx
        · exact le_of_lt (lt_of_not_le h)
        · exact hd x hx

theorem pairwise_sortByTimestampDesc :
    ∀ l : List StoredDoc,
      (sortByTimestampDesc l).Pairwise
        (fun a b => b.serverTimestamp ≤ a.serverTimestamp)
  | [] => by simp [sortByTimestampDesc]
  | d :: ds => by
      rw [sortByTimestampDesc]
      exact pairwise_insertByTimestampDesc (pairwise_sortByTimestampDesc ds)

/-- C6 (amended): the Firestore-backed history query returns at most
`limit` documents ordered newest-first by server timestamp, while the
local-file fallback `MockFirebaseManager.get_user_history` returns, for
`limit ≥ 1`, the newest `min(limit, n)` of the user's `n` saved entries as
a suffix of the append-ordered list — i.e. in insertion order, oldest of
the window first, not newest first — and for `limit = 0` (Python slice
`[-0:]`) it returns the entire history regardless of the limit. -/
theorem history_query_amended (docs : List StoredDoc) (store : MockStore)
    (userId : String) (limit : Nat) (hlim : 1 ≤ limit) :
    (firestoreGetUserHistory docs limit).length ≤ limit ∧
    (firestoreGetUserHistory docs limit).Pairwise
      (fun a b => b.serverTimestamp ≤ a.serverTimestamp) ∧
    mockGetUserHistory store userId limit <:+ store userId ∧
    (mockGetUserHistory store userId limit).length =
      min limit (store userId).length ∧
    mockGetUserHistory store userId 0 = store userId := by
  refine ⟨?_, ?_, ?_, ?_, ?_⟩
  · simp [firestoreGetUserHistory]
  · exact (pairwise_sortByTimestampDesc docs).sublist (List.take_sublist _ _)
  · unfold mockGetUserHistory
    by_cases hempty : store userId = []
    · rw [if_pos hempty, hempty]
    · rw [if_neg hempty, if_neg (by omega)]
      exact List.drop_suffix _ _
  · unfold mockGetUserHistory
    by_cases hempty : store userId = []
    · rw [if_pos hempty, hempty]
      simp
    · rw [if_neg hempty, if_neg (by omega)]
      have h1 : 1 ≤ (store userId).length := by
        cases hs : store userId with
        | nil => exact absurd hs hempty
        | cons a as => simp
      simp only [List.length_drop]
      omega
  · unfold mockGetUserHistory
    by_cases hempty : store userId = []
    · rw [if_pos hempty, hempty]
    · rw [if_neg hempty, if_pos rfl]

theorem history_query_amended_witness :
    1 ≤ 1 ∧
    ((firestoreGetUserHistory [⟨5, mkTestRecord 1 "2026-02-01"⟩] 1).length ≤ 1 ∧
    (firestoreGetUserHistory [⟨5, mkTestRecord 1 "2026-02-01"⟩] 1).Pairwise
      (fun a b => b.serverTimestamp ≤ a.serverTimestamp) ∧
    mockGetUserHistory (fun _ => []) "김재원" 1 <:+ (fun _ => ([] : List SavedEntry)) "김재원" ∧
    (mockGetUserHistory (fun _ => []) "김재원" 1).length =
      min 1 ((fun _ => ([] : List SavedEntry)) "김재원").length ∧
    mockGetUserHistory (fun _ => []) "김재원" 0 = (fun _ => ([] : List SavedEntry)) "김재원") :=
  ⟨le_refl 1,
    history_query_amended [⟨5, mkTestRecord 1 "2026-02-01"⟩] (fun _ => []) "김재원" 1 (le_refl 1)⟩

/-- The mock store after two consecutive saves for the same user (the
first-saved record is the older one). -/
def twoSaveStore : MockStore :=
  mockSaveEmotionAnalysis
    (mockSaveEmotionAnalysis (fun _ => []) "김재원" (mkTestRecord 1 "2026-02-01")
      "analysis_1" "t1")
    "김재원" (mkTestRecord 2 "2026-02-02") "analysis_2" "t2"

/-- C6, counterexample to the claim as stated: after saving an older and
then a newer record, the local-file fallback returns the *older* record
first (`head?` of the history is the first-saved entry, which differs from
the newer one), so the result is not ordered newest first; and with
`limit = 0` it returns 2 records, violating `length ≤ limit`. -/
theorem mock_history_newest_first_cex :
    (mockGetUserHistory twoSaveStore "김재원" 2).head? =
      some ⟨"analysis_1", "t1", mkTestRecord 1 "2026-02-01"⟩ ∧
    (⟨"analysis_1", "t1", mkTestRecord 1 "2026-02-01"⟩ : SavedEntry) ≠
      ⟨"analysis_2", "t2", mkTestRecord 2 "2026-02-02"⟩ ∧
    (mockGetUserHistory twoSaveStore "김재원" 0).length = 2 := by
  refine ⟨?_, ?_, ?_⟩ <;>
    simp [mockGetUserHistory, twoSaveStore, mockSaveEmotionAnalysis, mkTestRecord]

/-! ## Keyword-scoring lemmas -/

theorem keywordScore_foldl (timeWeight : ℚ) (text : String) :
    ∀ (keywords : List String) (s : ℚ),
      keywords.foldl (fun a k => if strContains text k then a + timeWeight else a) s =
        s + (keywords.countP (fun k => strContains text k) : ℚ) * timeWeight := by
  intro keywords
  induction keywords with
  | nil => intro s; simp
  | cons k ks ih =>
      intro s
      by_cases h : strContains text k
      · simp only [List.foldl_cons, if_pos h, ih, List.countP_cons, h, if_true]
        push_cast
        ring
      · simp [h, ih, List.countP_cons]

/-- The inner keyword loop adds `timeWeight` once per matching keyword. -/
theorem keywordScore_eq (timeWeight : ℚ) (text : String) (keywords : List String) :
    keywordScore timeWeight text keywords =
      (keywords.countP (fun k => strContains text k) : ℚ) * timeWeight := by
  rw [keywordScore, keywordScore_foldl]
  ring

theorem keywordScore_nonneg (timeWeight : ℚ) (text : String)
    (keywords : List String) (h : 0 ≤ timeWeight) :
    0 ≤ keywordScore timeWeight text keywords := by
  rw [keywordScore_eq]
  exact mul_nonneg (Nat.cast_nonneg _) h

theorem subsFold_nonneg (w : Nat → ℚ) (hw : ∀ d, 0 ≤ w d) :
    ∀ (subs : List Subscription) (acc : EmotionScores × InterestScores),
      0 ≤ acc.1.positive → 0 ≤ acc.1.negative → 0 ≤ acc.1.neutral →
      0 ≤ acc.2.entertainment → 0 ≤ acc.2.lifestyle →
      0 ≤ acc.2.education → 0 ≤ acc.2.social →
      0 ≤ (subs.foldl (subscriptionStep w) acc).1.positive ∧
      0 ≤ (subs.foldl (subscriptionStep w) acc).1.negative ∧
      0 ≤ (subs.foldl (subscriptionStep w) acc).1.neutral ∧
      0 ≤ (subs.foldl (subscriptionStep w) acc).2.entertainment ∧
      0 ≤ (subs.foldl (subscriptionStep w) acc).2.lifestyle ∧
      0 ≤ (subs.foldl (subscriptionStep w) acc).2.education ∧
      0 ≤ (subs.foldl (subscriptionStep w) acc).2.social := by
  intro subs
  induction subs with
  | nil =>
      intro acc h1 h2 h3 h4 h5 h6 h7
      exact ⟨h1, h2, h3, h4, h5, h6, h7⟩
  | cons sub rest ih =>
      intro acc h1 h2 h3 h4 h5 h6 h7
      rw [List.foldl_cons]
      exact ih _
        (add_nonneg h1 (keywordScore_nonneg _ _ _ (hw _)))
        (add_nonneg h2 (keywordScore_nonneg _ _ _ (hw _)))
        (add_nonneg h3 (keywordScore_nonneg _ _ _ (hw _)))
        (add_nonneg h4 (keywordScore_nonneg _ _ _ (hw _)))
        (add_nonneg h5 (keywordScore_nonneg _ _ _ (hw _)))
        (add_nonneg h6 (keywordScore_nonneg _ _ _ (hw _)))
        (add_nonneg h7 (keywordScore_nonneg _ _ _ (hw _)))

theorem likedFold_nonneg (w : Nat → ℚ) (hw : ∀ d, 0 ≤ w d) :
    ∀ (liked : List LikedVideo) (acc : EmotionScores),
      0 ≤ acc.positive → 0 ≤ acc.negative → 0 ≤ acc.neutral →
      0 ≤ (liked.foldl (likedVideoStep w) acc).positive ∧
      0 ≤ (liked.foldl (likedVideoStep w) acc).negative ∧
      0 ≤ (liked.foldl (likedVideoStep w) acc).neutral := by
  intro liked
  induction liked with
  | nil => intro acc h1 h2 h3; exact ⟨h1, h2, h3⟩
  | cons video rest ih =>
      intro acc h1 h2 h3
      rw [List.foldl_cons]
      have hwv : 0 ≤ w (calculateDaysAgo video.publishedAt) * 1.5 :=
        mul_nonneg (hw _) (by norm_num)
      exact ih _
        (add_nonneg h1 (keywordScore_nonneg _ _ _ hwv))
        (add_nonneg h2 (keywordScore_nonneg _ _ _ hwv))
        (add_nonneg h3 (keywordScore_nonneg _ _ _ hwv))

theorem emotionInterestRaw_nonneg (w : Nat → ℚ) (data : YoutubeData)
    (hw : ∀ d, 0 ≤ w d) :
    0 ≤ (emotionInterestRaw w data).1.positive ∧
    0 ≤ (emotionInterestRaw w data).1.negative ∧
    0 ≤ (emotionInterestRaw w data).1.neutral ∧
    0 ≤ (emotionInterestRaw w data).2.entertainment ∧
    0 ≤ (emotionInterestRaw w data).2.lifestyle ∧
    0 ≤ (emotionInterestRaw w data).2.education ∧
    0 ≤ (emotionInterestRaw w data).2.social := by
  have hsubs := subsFold_nonneg w hw data.subscriptions (⟨0, 0, 0⟩, ⟨0, 0, 0, 0⟩)
    le_rfl le_rfl le_rfl le_rfl le_rfl le_rfl le_rfl
  have hliked := likedFold_nonneg w hw data.likedVideos
    (data.subscriptions.foldl (subscriptionStep w) (⟨0, 0, 0⟩, ⟨0, 0, 0, 0⟩)).1
    hsubs.1 hsubs.2.1 hsubs.2.2.1
  exact ⟨hliked.1, hliked.2.1, hliked.2.2, hsubs.2.2.2.1, hsubs.2.2.2.2.1,
    hsubs.2.2.2.2.2.1, hsubs.2.2.2.2.2.2⟩

theorem emotion_bundle_props (w : Nat → ℚ) (data : YoutubeData)
    (hw : ∀ d, 0 ≤ w d) :
    (0 ≤ (analyzeYoutubeEmotions w data).emotionScores.positive ∧
      0 ≤ (analyzeYoutubeEmotions w data).emotionScores.negative ∧
      0 ≤ (analyzeYoutubeEmotions w data).emotionScores.neutral) ∧
    (0 < (emotionInterestRaw w data).1.positive + (emotionInterestRaw w data).1.negative +
        (emotionInterestRaw w data).1.neutral →
      (analyzeYoutubeEmotions w data).emotionScores.positive +
        (analyzeYoutubeEmotions w data).emotionScores.negative +
        (analyzeYoutubeEmotions w data).emotionScores.neutral = 1) ∧
    ((emotionInterestRaw w data).1.positive + (emotionInterestRaw w data).1.negative +
        (emotionInterestRaw w data).1.neutral = 0 →
      (analyzeYoutubeEmotions w data).emotionScores.positive = 0 ∧
        (analyzeYoutubeEmotions w data).emotionScores.negative = 0 ∧
        (analyzeYoutubeEmotions w data).emotionScores.neutral = 0) := by
  obtain ⟨hp, hn, hu, -, -, -, -⟩ := emotionInterestRaw_nonneg w data hw
  simp only [analyzeYoutubeEmotions]
  split_ifs with hTE
  all_goals
    refine ⟨⟨?_, ?_, ?_⟩, ?_, ?_⟩
  all_goals
    try first
      | exact hp
      | exact hn
      | exact hu
      | exact div_nonneg hp (le_of_lt hTE)
      | exact div_nonneg hn (le_of_lt hTE)
      | exact div_nonneg hu (le_of_lt hTE)
  all_goals intro h
  · rw [div_add_div_same, div_add_div_same, div_self (ne_of_gt hTE)]
  · exact absurd h (ne_of_gt hTE)
  · exact absurd h hTE
  · exact ⟨by linarith, by linarith, by linarith⟩

theorem interest_bundle_props (w : Nat → ℚ) (data : YoutubeData)
    (hw : ∀ d, 0 ≤ w d) :
    (0 ≤ (analyzeYoutubeEmotions w data).interests.entertainment ∧
      0 ≤ (analyzeYoutubeEmotions w data).interests.lifestyle ∧
      0 ≤ (analyzeYoutubeEmotions w data).interests.education ∧
      0 ≤ (analyzeYoutubeEmotions w data).interests.social) ∧
    (0 < (emotionInterestRaw w data).2.entertainment + (emotionInterestRaw w data).2.lifestyle +
        (emotionInterestRaw w data).2.education + (emotionInterestRaw w data).2.social →
      (analyzeYoutubeEmotions w data).interests.entertainment +
        (analyzeYoutubeEmotions w data).interests.lifestyle +
        (analyzeYoutubeEmotions w data).interests.education +
        (analyzeYoutubeEmotions w data).interests.social = 1) ∧
    ((emotionInterestRaw w data).2.entertainment + (emotionInterestRaw w data).2.lifestyle +
        (emotionInterestRaw w data).2.education + (emotionInterestRaw w data).2.social = 0 →
      (analyzeYoutubeEmotions w data).interests.entertainment = 0 ∧
        (analyzeYoutubeEmotions w data).interests.lifestyle = 0 ∧
        (analyzeYoutubeEmotions w data).interests.education = 0 ∧
        (analyzeYoutubeEmotions w data).interests.social = 0) := by
  obtain ⟨-, -, -, he, hl, hed, hs⟩ := emotionInterestRaw_nonneg w data hw
  simp only [analyzeYoutubeEmotions]
  split_ifs with hTI
  all_goals
    refine ⟨⟨?_, ?_, ?_, ?_⟩, ?_, ?_⟩
  all_goals
    try first
      | exact he
      | exact hl
      | exact hed
      | exact hs
      | exact div_nonneg he (le_of_lt hTI)
      | exact div_nonneg hl (le_of_lt hTI)
      | exact div_nonneg hed (le_of_lt hTI)
      | exact div_nonneg hs (le_of_lt hTI)
  all_goals intro h
  · rw [div_add_div_same, div_add_div_same, div_add_div_same, div_self (ne_of_gt hTI)]
  · exact absurd h (ne_of_gt hTI)
  · exact absurd h hTI
  · exact ⟨by linarith, by linarith, by linarith, by linarith⟩

/-- C2: for every YouTube input (and any non-negative recency weighting,
as `exp(-λ·d)` is), each normalised bundle returned by
`analyze_youtube_emotions` — the emotion bundle over
positive/negative/neutral and the interest bundle over
entertainment/lifestyle/education/social — has all weights ≥ 0, and the
weights sum to exactly 1 whenever the bundle's total raw signal is
positive, while a zero total raw signal leaves every weight exactly 0
(the division is guarded). -/
theorem bundle_normalization_invariant (w : Nat → ℚ) (data : YoutubeData)
    (hw : ∀ d, 0 ≤ w d) :
    ((0 ≤ (analyzeYoutubeEmotions w data).emotionScores.positive ∧
      0 ≤ (analyzeYoutubeEmotions w data).emotionScores.negative ∧
      0 ≤ (analyzeYoutubeEmotions w data).emotionScores.neutral) ∧
    (0 < (emotionInterestRaw w data).1.positive + (emotionInterestRaw w data).1.negative +
        (emotionInterestRaw w data).1.neutral →
      (analyzeYoutubeEmotions w data).emotionScores.positive +
        (analyzeYoutubeEmotions w data).emotionScores.negative +
        (analyzeYoutubeEmotions w data).emotionScores.neutral = 1) ∧
    ((emotionInterestRaw w data).1.positive + (emotionInterestRaw w data).1.negative +
        (emotionInterestRaw w data).1.neutral = 0 →
      (analyzeYoutubeEmotions w data).emotionScores.positive = 0 ∧
        (analyzeYoutubeEmotions w data).emotionScores.negative = 0 ∧
        (analyzeYoutubeEmotions w data).emotionScores.neutral = 0)) ∧
    ((0 ≤ (analyzeYoutubeEmotions w data).interests.entertainment ∧
      0 ≤ (analyzeYoutubeEmotions w data).interests.lifestyle ∧
      0 ≤ (analyzeYoutubeEmotions w data).interests.education ∧
      0 ≤ (analyzeYoutubeEmotions w data).interests.social) ∧
    (0 < (emotionInterestRaw w data).2.entertainment + (emotionInterestRaw w data).2.lifestyle +
        (emotionInterestRaw w data).2.education + (emotionInterestRaw w data).2.social →
      (analyzeYoutubeEmotions w data).interests.entertainment +
        (analyzeYoutubeEmotions w data).interests.lifestyle +
        (analyzeYoutubeEmotions w data).interests.education +
        (analyzeYoutubeEmotions w data).interests.social = 1) ∧
    ((emotionInterestRaw w data).2.entertainment + (emotionInterestRaw w data).2.lifestyle +
        (emotionInterestRaw w data).2.education + (emotionInterestRaw w data).2.social = 0 →
      (analyzeYoutubeEmotions w data).interests.entertainment = 0 ∧
        (analyzeYoutubeEmotions w data).interests.lifestyle = 0 ∧
        (analyzeYoutubeEmotions w data).interests.education = 0 ∧
        (analyzeYoutubeEmotions w data).interests.social = 0)) :=
  ⟨emotion_bundle_props w data hw, interest_bundle_props w data hw⟩

theorem bundle_normalization_invariant_witness :
    (∀ d : Nat, 0 ≤ (fun _ : Nat => (1 : ℚ)) d) ∧
    0 < (emotionInterestRaw (fun _ => 1) ⟨[⟨"힐링 음악", .parsed 0⟩], []⟩).1.positive +
        (emotionInterestRaw (fun _ => 1) ⟨[⟨"힐링 음악", .parsed 0⟩], []⟩).1.negative +
        (emotionInterestRaw (fun _ => 1) ⟨[⟨"힐링 음악", .parsed 0⟩], []⟩).1.neutral ∧
    (analyzeYoutubeEmotions (fun _ => 1)
        ⟨[⟨"힐링 음악", .parsed 0⟩], []⟩).emotionScores.positive +
      (analyzeYoutubeEmotions (fun _ => 1)
        ⟨[⟨"힐링 음악", .parsed 0⟩], []⟩).emotionScores.negative +
      (analyzeYoutubeEmotions (fun _ => 1)
        ⟨[⟨"힐링 음악", .parsed 0⟩], []⟩).emotionScores.neutral = 1 := by
  have hw : ∀ d : Nat, 0 ≤ (fun _ : Nat => (1 : ℚ)) d := fun _ => zero_le_one
  have hcp : positiveKeywords.countP (fun k => strContains (lowercase "힐링 음악") k) = 2 := by
    decide
  have hcn : negativeKeywords.countP (fun k => strContains (lowercase "힐링 음악") k) = 0 := by
    decide
  have hcu : neutralKeywords.countP (fun k => strContains (lowercase "힐링 음악") k) = 0 := by
    decide
  have hpos : 0 <
      (emotionInterestRaw (fun _ => 1) ⟨[⟨"힐링 음악", .parsed 0⟩], []⟩).1.positive +
        (emotionInterestRaw (fun _ => 1) ⟨[⟨"힐링 음악", .parsed 0⟩], []⟩).1.negative +
        (emotionInterestRaw (fun _ => 1) ⟨[⟨"힐링 음악", .parsed 0⟩], []⟩).1.neutral := by
    simp only [emotionInterestRaw, List.foldl_cons, List.foldl_nil, subscriptionStep,
      keywordScore_eq, hcp, hcn, hcu]
    norm_num
  exact ⟨hw, hpos,
    (bundle_normalization_invariant (fun _ => 1) ⟨[⟨"힐링 음악", .parsed 0⟩], []⟩ hw).1.2.1 hpos⟩

/-- C8: appending one liked video to the input adds, for each emotion
category, exactly (number of keyword matches on its lower-cased title) ×
`time_weight * 1.5` to that category's raw accumulator — 50 % more than
the `time_weight` a subscription match adds — while the interest
accumulators are unchanged by liked videos (only subscriptions feed the
interest categories). -/
theorem liked_video_weighting (w : Nat → ℚ) (subs : List Subscription)
    (liked : List LikedVideo) (video : LikedVideo) :
    ((emotionInterestRaw w ⟨subs, liked ++ [video]⟩).1.positive =
      (emotionInterestRaw w ⟨subs, liked⟩).1.positive +
        (positiveKeywords.countP (fun k => strContains (lowercase video.title) k) : ℚ) *
          (w (calculateDaysAgo video.publishedAt) * 1.5)) ∧
    ((emotionInterestRaw w ⟨subs, liked ++ [video]⟩).1.negative =
      (emotionInterestRaw w ⟨subs, liked⟩).1.negative +
        (negativeKeywords.countP (fun k => strContains (lowercase video.title) k) : ℚ) *
          (w (calculateDaysAgo video.publishedAt) * 1.5)) ∧
    ((emotionInterestRaw w ⟨subs, liked ++ [video]⟩).1.neutral =
      (emotionInterestRaw w ⟨subs, liked⟩).1.neutral +
        (neutralKeywords.countP (fun k => strContains (lowercase video.title) k) : ℚ) *
          (w (calculateDaysAgo video.publishedAt) * 1.5)) ∧
    (emotionInterestRaw w ⟨subs, liked ++ [video]⟩).2 =
      (emotionInterestRaw w ⟨subs, liked⟩).2 ∧
    (emotionInterestRaw w ⟨subs, liked⟩).2 = (emotionInterestRaw w ⟨subs, []⟩).2 := by
  refine ⟨?_, ?_, ?_, rfl, rfl⟩ <;>
    simp only [emotionInterestRaw, List.foldl_append, List.foldl_cons, List.foldl_nil,
      likedVideoStep, keywordScore_eq]

/-! ## Daily-count dictionary lemmas -/

/-- The value stored for key `x` (0 when absent) — Python
`daily_counts.get(x, 0)`. -/
def countVal : List (String × Nat) → String → Nat
  | [], _ => 0
  | (k, v) :: rest, x => if k = x then v else countVal rest x

theorem bumpDay_keys (d : String) :
    ∀ m : List (String × Nat),
      (bumpDay m d).map Prod.fst =
        if d ∈ m.map Prod.fst then m.map Prod.fst else m.map Prod.fst ++ [d]
  | [] => by simp [bumpDay]
  | (k, v) :: rest => by
      by_cases hk : k = d
      · subst hk
        simp [bumpDay]
      · have ih := bumpDay_keys d rest
        have hdk : ¬ d = k := fun h => hk h.symm
        by_cases hd : d ∈ rest.map Prod.fst
        · rw [if_pos (by simp [hd])]
          simp only [bumpDay, if_neg hk, List.map_cons, ih, if_pos hd]
        · rw [if_neg (by simp [hdk, hd])]
          simp only [bumpDay, if_neg hk, List.map_cons, ih, if_neg hd,
            List.cons_append]

theorem bumpDay_countVal (d x : String) :
    ∀ m : List (String × Nat),
      countVal (bumpDay m d) x =
        if x = d then countVal m x + 1 else countVal m x
  | [] => by
      by_cases hx : x = d
      · subst hx
        simp [bumpDay, countVal]
      · have hdx : ¬ d = x := fun h => hx h.symm
        simp [bumpDay, countVal, hdx, hx]
  | (k, v) :: rest => by
      have ih := bumpDay_countVal d x rest
      by_cases hk : k = d
      · subst hk
        by_cases hx : x = k
        · subst hx
          simp [bumpDay, countVal]
        · have hkx : ¬ k = x := fun h => hx h.symm
          simp [bumpDay, countVal, hkx, hx]
      · by_cases hkx : k = x
        · subst hkx
          simp [bumpDay, countVal, hk]
        · simp [bumpDay, countVal, hk, hkx, ih]

theorem bumpDay_keys_nodup (d : String) (m : List (String × Nat))
    (h : (m.map Prod.fst).Nodup) : ((bumpDay m d).map Prod.fst).Nodup := by
  rw [bumpDay_keys]
  by_cases hd : d ∈ m.map Prod.fst
  · rwa [if_pos hd]
  · rw [if_neg hd]
    refine List.nodup_append.mpr ⟨h, List.nodup_singleton d, ?_⟩
    intro x hx hxd
    rw [List.mem_singleton] at hxd
    exact hd (hxd ▸ hx)

theorem dailyFold_countVal (x : String) :
    ∀ (dates : List String) (m : List (String × Nat)),
      countVal (dates.foldl bumpDay m) x = countVal m x + dates.count x := by
  intro dates
  induction dates with
  | nil => intro m; simp
  | cons d ds ih =>
      intro m
      rw [List.foldl_cons, ih, bumpDay_countVal, List.count_cons]
      by_cases hx : x = d
      · subst hx
        simp only [if_pos rfl, beq_self_eq_true, if_true]
        omega
      · have hdx : ¬ d = x := fun h => hx h.symm
        simp [hx, hdx]

theorem dailyFold_keys_mem (x : String) :
    ∀ (dates : List String) (m : List (String × Nat)),
      x ∈ (dates.foldl bumpDay m).map Prod.fst ↔
        x ∈ m.map Prod.fst ∨ x ∈ dates := by
  intro dates
  induction dates with
  | nil => intro m; simp
  | cons d ds ih =>
      intro m
      rw [List.foldl_cons, ih, bumpDay_keys]
      by_cases hd : d ∈ m.map Prod.fst
      · rw [if_pos hd]
        constructor
        · rintro (h | h)
          · exact Or.inl h
          · exact Or.inr (List.mem_cons_of_mem d h)
        · rintro (h | h)
          · exact Or.inl h
          · rcases List.mem_cons.mp h with rfl | h
            · exact Or.inl hd
            · exact Or.inr h
      · rw [if_neg hd]
        simp only [List.mem_append, List.mem_singleton, List.mem_cons]
        tauto

theorem dailyFold_keys_nodup :
    ∀ (dates : List String) (m : List (String × Nat)),
      (m.map Prod.fst).Nodup → ((dates.foldl bumpDay m).map Prod.fst).Nodup := by
  intro dates
  induction dates with
  | nil => intro m h; exact h
  | cons d ds ih =>
      intro m h
      rw [List.foldl_cons]
      exact ih _ (bumpDay_keys_nodup d m h)

theorem values_eq_countVal :
    ∀ m : List (String × Nat), (m.map Prod.fst).Nodup →
      m.map Prod.snd = (m.map Prod.fst).map (countVal m)
  | [], _ => rfl
  | (k, v) :: rest, h => by
      rw [List.map_cons, List.nodup_cons] at h
      obtain ⟨hk, hrest⟩ := h
      have ih := values_eq_countVal rest hrest
      simp only [List.map_cons, countVal, if_pos rfl]
      refine congrArg (v :: ·) ?_
      rw [ih]
      refine List.map_congr_left ?_
      intro x hx
      simp only [countVal,
        if_neg (show ¬ k = x from fun he => hk (by rw [he]; exact hx))]

theorem foldl_natMax (g : String → Nat) :
    ∀ (l : List String) (a : Nat),
      (l.map g).foldl Nat.max a = Nat.max a (l.toFinset.sup g) := by
  intro l
  induction l with
  | nil =>
      intro a
      simp
  | cons x xs ih =>
      intro a
      rw [List.map_cons, List.foldl_cons, ih, List.toFinset_cons, Finset.sup_insert]
      exact max_assoc a (g x) _

/-! ## Time-distribution lemmas -/

theorem foldl_pair_split (events : List CalendarEvent) :
    ∀ (m : List (String × Nat)) (td : TimeDistribution),
      events.foldl
          (fun acc event => (bumpDay acc.1 event.startDate, bumpTime acc.2 event.startTime))
          (m, td) =
        (events.foldl (fun m event => bumpDay m event.startDate) m,
         events.foldl (fun td event => bumpTime td event.startTime) td) := by
  induction events with
  | nil => intro m td; rfl
  | cons e es ih =>
      intro m td
      rw [List.foldl_cons, List.foldl_cons, List.foldl_cons]
      exact ih _ _

theorem timeFold_counts (events : List CalendarEvent) :
    ∀ td : TimeDistribution,
      (events.foldl (fun td event => bumpTime td event.startTime) td).morning =
          td.morning + events.countP
            (fun e => decide (eventBucket e.startTime = some TimeBucket.morning)) ∧
      (events.foldl (fun td event => bumpTime td event.startTime) td).afternoon =
          td.afternoon + events.countP
            (fun e => decide (eventBucket e.startTime = some TimeBucket.afternoon)) ∧
      (events.foldl (fun td event => bumpTime td event.startTime) td).evening =
          td.evening + events.countP
            (fun e => decide (eventBucket e.startTime = some TimeBucket.evening)) ∧
      (events.foldl (fun td event => bumpTime td event.startTime) td).night =
          td.night + events.countP
            (fun e => decide (eventBucket e.startTime = some TimeBucket.night)) := by
  induction events with
  | nil => intro td; simp
  | cons e es ih =>
      intro td
      obtain ⟨ihm, iha, ihe, ihn⟩ := ih (bumpTime td e.startTime)
      rw [List.foldl_cons]
      refine ⟨?_, ?_, ?_, ?_⟩
      · rw [ihm, List.countP_cons]
        rcases hb : eventBucket e.startTime with - | b
        · simp [bumpTime, hb]
        · cases b <;>
            simp [bumpTime, hb, Nat.add_assoc, Nat.add_comm, Nat.add_left_comm]
      · rw [iha, List.countP_cons]
        rcases hb : eventBucket e.startTime with - | b
        · simp [bumpTime, hb]
        · cases b <;>
            simp [bumpTime, hb, Nat.add_assoc, Nat.add_comm, Nat.add_left_comm]
      · rw [ihe, List.countP_cons]
        rcases hb : eventBucket e.startTime with - | b
        · simp [bumpTime, hb]
        · cases b <;>
            simp [bumpTime, hb, Nat.add_assoc, Nat.add_comm, Nat.add_left_comm]
      · rw [ihn, List.countP_cons]
        rcases hb : eventBucket e.startTime with - | b
        · simp [bumpTime, hb]
        · cases b <;>
            simp [bumpTime, hb, Nat.add_assoc, Nat.add_comm, Nat.add_left_comm]

/-! ## The fatigue components as the specification words them -/

/-- Total events divided by the number of distinct days with events. -/
def fatigueDensitySpec (events : List CalendarEvent) : ℚ :=
  (events.length : ℚ) / ((events.map (fun e => e.startDate)).toFinset.card : ℚ)

/-- The largest number of events falling on a single day. -/
def maxDailyCount (events : List CalendarEvent) : Nat :=
  (events.map (fun e => e.startDate)).toFinset.sup
    (fun d => (events.map (fun e => e.startDate)).count d)

/-- Max daily count divided by `10.0`, not clamped above 1. -/
def fatigueGapSpec (events : List CalendarEvent) : ℚ :=
  (maxDailyCount events : ℚ) / 10.0

/-- The number of timed (non-all-day) events. -/
def timedEventCount (events : List CalendarEvent) : Nat :=
  events.countP (fun e => (eventBucket e.startTime).isSome)

/-- The number of events in the night bucket. -/
def nightEventCount (events : List CalendarEvent) : Nat :=
  events.countP (fun e => decide (eventBucket e.startTime = some TimeBucket.night))

/-- Night-bucket count over total timed count, `0` when nothing is timed. -/
def fatigueTimeSpec (events : List CalendarEvent) : ℚ :=
  if timedEventCount events = 0 then 0
  else (nightEventCount events : ℚ) / (timedEventCount events : ℚ)

theorem dailyCounts_length (events : List CalendarEvent) :
    (calendarLoop events).1.length =
      (events.map (fun e => e.startDate)).toFinset.card := by
  rw [calendarLoop, foldl_pair_split]
  have hmap : events.foldl (fun m event => bumpDay m event.startDate) [] =
      (events.map (fun e => e.startDate)).foldl bumpDay [] :=
    (List.foldl_map _ _ _ _).symm
  rw [hmap]
  set dates := events.map (fun e => e.startDate) with hdates
  have hnodup := dailyFold_keys_nodup dates [] (by simp)
  have hfin : ((dates.foldl bumpDay []).map Prod.fst).toFinset = dates.toFinset := by
    ext x
    simp only [List.mem_toFinset, dailyFold_keys_mem]
    simp
  calc (dates.foldl bumpDay []).length
      = ((dates.foldl bumpDay []).map Prod.fst).length := (List.length_map _ _).symm
    _ = ((dates.foldl bumpDay []).map Prod.fst).toFinset.card :=
        (List.toFinset_card_of_nodup hnodup).symm
    _ = dates.toFinset.card := by rw [hfin]

theorem dailyCounts_max (events : List CalendarEvent) :
    ((calendarLoop events).1.map Prod.snd).foldl Nat.max 0 = maxDailyCount events := by
  rw [calendarLoop, foldl_pair_split]
  have hmap : events.foldl (fun m event => bumpDay m event.startDate) [] =
      (events.map (fun e => e.startDate)).foldl bumpDay [] :=
    (List.foldl_map _ _ _ _).symm
  rw [hmap]
  set dates := events.map (fun e => e.startDate) with hdates
  have hnodup := dailyFold_keys_nodup dates [] (by simp)
  have hfin : ((dates.foldl bumpDay []).map Prod.fst).toFinset = dates.toFinset := by
    ext x
    simp only [List.mem_toFinset, dailyFold_keys_mem]
    simp
  rw [values_eq_countVal _ hnodup]
  have hvals : ((dates.foldl bumpDay []).map Prod.fst).map (countVal (dates.foldl bumpDay [])) =
      ((dates.foldl bumpDay []).map Prod.fst).map (fun x => dates.count x) := by
    refine List.map_congr_left ?_
    intro x _
    rw [dailyFold_countVal]
    simp [countVal]
  rw [hvals, foldl_natMax, maxDailyCount, hfin, ← hdates]
  simp

theorem calendarLoop_night (events : List CalendarEvent) :
    (calendarLoop events).2.night = nightEventCount events := by
  rw [calendarLoop, foldl_pair_split]
  have h := (timeFold_counts events ⟨0, 0, 0, 0⟩).2.2.2
  rw [h, nightEventCount]
  simp

/-- Every timed event falls in exactly one of the four buckets. -/
theorem countP_bucket_partition :
    ∀ events : List CalendarEvent,
      events.countP (fun e => decide (eventBucket e.startTime = some TimeBucket.morning)) +
      events.countP (fun e => decide (eventBucket e.startTime = some TimeBucket.afternoon)) +
      events.countP (fun e => decide (eventBucket e.startTime = some TimeBucket.evening)) +
      events.countP (fun e => decide (eventBucket e.startTime = some TimeBucket.night)) =
      events.countP (fun e => (eventBucket e.startTime).isSome)
  | [] => rfl
  | e :: es => by
      have ih := countP_bucket_partition es
      rw [List.countP_cons, List.countP_cons, List.countP_cons, List.countP_cons,
        List.countP_cons]
      rcases hb : eventBucket e.startTime with - | b
      · simp [hb]
        omega
      · cases b <;> (simp [hb]; omega)

theorem calendarLoop_timed_total (events : List CalendarEvent) :
    (calendarLoop events).2.morning + (calendarLoop events).2.afternoon +
      (calendarLoop events).2.evening + (calendarLoop events).2.night =
      timedEventCount events := by
  rw [calendarLoop, foldl_pair_split]
  obtain ⟨hm, ha, he, hn⟩ := timeFold_counts events ⟨0, 0, 0, 0⟩
  rw [hm, ha, he, hn, timedEventCount, ← countP_bucket_partition]
  simp

/-- The five all-day events of the specification's scenario, all on one
date. -/
def allDayEvents : List CalendarEvent :=
  [⟨"일정 1", "2026-02-01", "종일", "", ""⟩,
   ⟨"일정 2", "2026-02-01", "종일", "", ""⟩,
   ⟨"일정 3", "2026-02-01", "종일", "", ""⟩,
   ⟨"일정 4", "2026-02-01", "종일", "", ""⟩,
   ⟨"일정 5", "2026-02-01", "종일", "", ""⟩]

/-- C3: for any non-empty event list, the fatigue index computed by
`analyze_calendar_fatigue` equals
`0.5 * fatigue_density + 0.3 * fatigue_gap + 0.2 * fatigue_time`, where
`fatigue_density` is total events over distinct days with events,
`fatigue_gap` is the max daily count over `10.0` (unclamped), and
`fatigue_time` is the night-bucket share of the timed events (`0` when no
event is timed). -/
theorem fatigue_index_formula (calendarData : CalendarData)
    (hne : calendarData.events ≠ []) :
    (analyzeCalendarFatigue calendarData).fatigueIndex =
      0.5 * fatigueDensitySpec calendarData.events +
      0.3 * fatigueGapSpec calendarData.events +
      0.2 * fatigueTimeSpec calendarData.events := by
  obtain ⟨events⟩ := calendarData
  simp only at hne
  simp only [analyzeCalendarFatigue, if_neg hne]
  have hlen := dailyCounts_length events
  have hmax := dailyCounts_max events
  have hnight := calendarLoop_night events
  have htot := calendarLoop_timed_total events
  have hpos : 0 < (calendarLoop events).1.length := by
    rw [hlen]
    refine Finset.card_pos.mpr ?_
    rcases events with - | ⟨e, es⟩
    · exact absurd rfl hne
    · exact ⟨e.startDate, by simp⟩
  rw [if_pos hpos, hlen, hmax, htot, hnight,
    ite_swap_of_iff_not
      (show 0 < timedEventCount events ↔ ¬(timedEventCount events = 0) by omega)]
  rw [fatigueDensitySpec, fatigueGapSpec, fatigueTimeSpec]

theorem fatigue_index_formula_witness :
    (⟨allDayEvents⟩ : CalendarData).events ≠ [] ∧
    ((analyzeCalendarFatigue ⟨allDayEvents⟩).fatigueIndex =
      0.5 * fatigueDensitySpec allDayEvents +
      0.3 * fatigueGapSpec allDayEvents +
      0.2 * fatigueTimeSpec allDayEvents) ∧
    fatigueDensitySpec allDayEvents = 5 ∧
    fatigueGapSpec allDayEvents = 1/2 ∧
    fatigueTimeSpec allDayEvents = 0 ∧
    (analyzeCalendarFatigue ⟨allDayEvents⟩).fatigueIndex = 53/20 ∧
    (analyzeCalendarFatigue ⟨allDayEvents⟩).stressLevel = "high" := by
  have hne : (⟨allDayEvents⟩ : CalendarData).events ≠ [] := by decide
  have hform : (analyzeCalendarFatigue ⟨allDayEvents⟩).fatigueIndex =
      0.5 * fatigueDensitySpec allDayEvents +
      0.3 * fatigueGapSpec allDayEvents +
      0.2 * fatigueTimeSpec allDayEvents :=
    fatigue_index_formula ⟨allDayEvents⟩ hne
  have hdens : fatigueDensitySpec allDayEvents = 5 := by
    rw [fatigueDensitySpec]
    norm_num [show ((allDayEvents.map (fun e => e.startDate)).toFinset.card) = 1 by decide,
      show allDayEvents.length = 5 by decide]
  have hgap : fatigueGapSpec allDayEvents = 1/2 := by
    rw [fatigueGapSpec]
    norm_num [show maxDailyCount allDayEvents = 5 by decide]
  have htime : fatigueTimeSpec allDayEvents = 0 := by
    rw [fatigueTimeSpec, if_pos (by decide)]
  have hindex : (analyzeCalendarFatigue ⟨allDayEvents⟩).fatigueIndex = 53/20 := by
    rw [hform, hdens, hgap, htime]
    norm_num
  refine ⟨hne, hform, hdens, hgap, htime, hindex, ?_⟩
  have hsl : (analyzeCalendarFatigue ⟨allDayEvents⟩).stressLevel =
      stressLevelOf (analyzeCalendarFatigue ⟨allDayEvents⟩).fatigueIndex := by
    simp only [analyzeCalendarFatigue, if_neg (show ¬ allDayEvents = [] by decide)]
  rw [hsl, hindex, stressLevelOf, if_pos (by norm_num)]
